import Mathlib

/-!  Verification development for the fx-cli repository.

The Python sources (`fx_cli/api.py`, `fx_cli/cli.py`) are shallowly
embedded: Python dicts of rates become association lists, floating-point
rates become rationals, a raised `FXAPIError`/`click.BadParameter` becomes
an `Except`/sum value carrying the raised message, and all I/O (the HTTP
response, the interactive prompt, the config file) is made explicit as
function arguments and returned state.  -/

namespace FxCli

/-- Model of Python `str.upper` on the basic latin range.  `Char.toUpper`
implements exactly the a-z ↦ A-Z map used by CPython on ASCII input
(currency codes); other characters are left unchanged, as in Python. -/
def upperStr (s : String) : String := ⟨s.data.map Char.toUpper⟩

/-- Model of Python `str.lower` on the basic latin range (used by
`cli.main` only to compare the date argument against `'today'`). -/
def lowerStr (s : String) : String := ⟨s.data.map Char.toLower⟩

/-- A RateSheet: the `rates` JSON object of one historical response, a
mapping from currency code to its rate relative to USD (`api.py`).
Python floats are modelled as rationals. -/
abbrev RateSheet := List (String × ℚ)

/-- Message of the `FXAPIError` raised (`api.py` line 171 / 195 / 197)
when a currency code is absent from the sheet. -/
def notFoundMsg (c date : String) : String :=
  "Currency '" ++ c ++ "' not found in rates for " ++ date

/-- Model of `FXAPI.get_rate` (`api.py` lines 153-173), given the RateSheet that
`get_historical_rates(date)` returned: upper-case the code, check
membership, return the entry; absence raises `FXAPIError` with
`notFoundMsg`. -/
def get_rate (rates : RateSheet) (date currency : String) : Except String ℚ :=
  let c := upperStr currency
  match rates.lookup c with
  | none => .error (notFoundMsg c date)
  | some r => .ok r

/-- Model of `FXAPI.convert_currency` (`api.py` lines 175-203), given the RateSheet
that `get_historical_rates(date)` returned: upper-case both codes, check
the from-code then the to-code, and return `to_rate / from_rate`. -/
def convert_currency (rates : RateSheet) (date from_currency to_currency : String) :
    Except String ℚ :=
  let f := upperStr from_currency
  let t := upperStr to_currency
  match rates.lookup f with
  | none => .error (notFoundMsg f date)
  | some from_rate =>
    match rates.lookup t with
    | none => .error (notFoundMsg t date)
    | some to_rate => .ok (to_rate / from_rate)

/-- C1: whenever both (upper-cased) codes are present in the sheet
observed for date `d`, `convert_currency` returns exactly the ratio of
the two `get_rate` results. -/
theorem convert_currency_eq_rate_quotient (rates : RateSheet) (d A B : String)
    (ra rb : ℚ) (hA : rates.lookup (upperStr A) = some ra)
    (hB : rates.lookup (upperStr B) = some rb) :
    convert_currency rates d A B = .ok (rb / ra) ∧
    get_rate rates d A = .ok ra ∧ get_rate rates d B = .ok rb := by
  simp [convert_currency, get_rate, hA, hB]

theorem convert_currency_eq_rate_quotient_witness :
    ([("USD", (2 : ℚ)), ("EUR", (4 : ℚ))].lookup (upperStr "usd") = some 2) ∧
    ([("USD", (2 : ℚ)), ("EUR", (4 : ℚ))].lookup (upperStr "eur") = some 4) ∧
    convert_currency [("USD", (2 : ℚ)), ("EUR", (4 : ℚ))] "2024-01-02" "usd" "eur" =
      .ok (4 / 2) := by
  refine ⟨by decide, by decide, ?_⟩
  exact (convert_currency_eq_rate_quotient _ "2024-01-02" "usd" "eur" 2 4
    (by decide) (by decide)).1

theorem char_toNat_ofNat {n : Nat} (h : n.isValidChar) : (Char.ofNat n).toNat = n := by
  simp [Char.ofNat, h, Char.ofNatAux, Char.toNat]
  rfl

theorem toUpper_idem (c : Char) : c.toUpper.toUpper = c.toUpper := by
  unfold Char.toUpper
  by_cases h : c.toNat ≥ 97 ∧ c.toNat ≤ 122
  · have hv : (c.toNat - 32).isValidChar := Or.inl (by omega)
    rw [if_pos h, char_toNat_ofNat hv, if_neg (by omega)]
  · rw [if_neg h, if_neg h]

theorem upperStr_idem (s : String) : upperStr (upperStr s) = upperStr s := by
  unfold upperStr
  exact congrArg String.mk (by simp [Function.comp, toUpper_idem])

/-- C2 counterexample: a sheet can carry a zero rate (the code does not
validate rate values), and then `convert_currency(d, A, A)` is `0/0`, not
`1`: in the rational model `0/0 = 0`; in Python float semantics it is
`nan`.  Either way the result differs from `1.0`, so presence of the code
alone is not a sufficient precondition. -/
theorem convert_currency_self_zero_ne_one :
    convert_currency [("USD", (0 : ℚ))] "2024-01-02" "USD" "USD" ≠ Except.ok 1 := by
  have h : convert_currency [("USD", (0 : ℚ))] "2024-01-02" "USD" "USD" =
      .ok ((0 : ℚ) / 0) := rfl
  rw [h, zero_div]
  intro hc
  exact absurd (Except.ok.inj hc) (by norm_num)

/-- C2 (amended): `convert_currency(d, A, A)` returns exactly `1` whenever
the upper-cased code `A` is present in the sheet with a nonzero rate. -/
theorem convert_currency_self_eq_one (rates : RateSheet) (d A : String) (r : ℚ)
    (h : rates.lookup (upperStr A) = some r) (hr : r ≠ 0) :
    convert_currency rates d A A = .ok 1 := by
  simp [convert_currency, h, div_self hr]

theorem convert_currency_self_eq_one_witness :
    ([("USD", (2 : ℚ))].lookup (upperStr "usd") = some 2) ∧ (2 : ℚ) ≠ 0 ∧
    convert_currency [("USD", (2 : ℚ))] "2024-01-02" "usd" "usd" = .ok 1 :=
  ⟨by decide, by norm_num,
    convert_currency_self_eq_one _ "2024-01-02" "usd" 2 (by decide) (by norm_num)⟩

/-- C4: `get_rate` raises the "not found" error exactly when the
upper-cased code is absent, the error message naming that code and the
date; `convert_currency` raises exactly when at least one code is absent,
and when the from-code is absent (in particular when both are) the error
names the from-code. -/
theorem not_found_errors (rates : RateSheet) (d c A B : String) :
    ((∃ m, get_rate rates d c = .error m) ↔ rates.lookup (upperStr c) = none) ∧
    (rates.lookup (upperStr c) = none →
      get_rate rates d c = .error (notFoundMsg (upperStr c) d)) ∧
    ((∃ m, convert_currency rates d A B = .error m) ↔
      (rates.lookup (upperStr A) = none ∨ rates.lookup (upperStr B) = none)) ∧
    (rates.lookup (upperStr A) = none →
      convert_currency rates d A B = .error (notFoundMsg (upperStr A) d)) := by
  refine ⟨?_, ?_, ?_, ?_⟩
  · cases h : rates.lookup (upperStr c) <;> simp [get_rate, h]
  · intro h; simp [get_rate, h]
  · cases hA : rates.lookup (upperStr A) <;>
      cases hB : rates.lookup (upperStr B) <;>
      simp [convert_currency, hA, hB]
  · intro h; simp [convert_currency, h]

theorem not_found_errors_witness :
    ([("USD", (2 : ℚ))].lookup (upperStr "eur") = none) ∧
    get_rate [("USD", (2 : ℚ))] "2024-01-02" "eur" =
      .error (notFoundMsg (upperStr "eur") "2024-01-02") ∧
    convert_currency [("USD", (2 : ℚ))] "2024-01-02" "eur" "jpy" =
      .error (notFoundMsg (upperStr "eur") "2024-01-02") :=
  ⟨by decide,
    (not_found_errors [("USD", (2 : ℚ))] "2024-01-02" "eur" "eur" "jpy").2.1 (by decide),
    (not_found_errors [("USD", (2 : ℚ))] "2024-01-02" "eur" "eur" "jpy").2.2.2 (by decide)⟩

/-- C5: both operations normalize codes to upper case before lookup:
they are invariant under pre-upper-casing their arguments, and the
"not found" message carries the upper-cased form of the code. -/
theorem upper_case_normalization (rates : RateSheet) (d c A B : String) :
    get_rate rates d c = get_rate rates d (upperStr c) ∧
    convert_currency rates d A B =
      convert_currency rates d (upperStr A) (upperStr B) ∧
    (rates.lookup (upperStr c) = none →
      ∃ p q, get_rate rates d c = .error (p ++ upperStr c ++ q)) := by
  refine ⟨?_, ?_, ?_⟩
  · simp [get_rate, upperStr_idem]
  · simp [convert_currency, upperStr_idem]
  · intro h
    refine ⟨"Currency '", "' not found in rates for " ++ d, ?_⟩
    simp [get_rate, h, notFoundMsg, String.append_assoc]

theorem upper_case_normalization_witness :
    ([("USD", (2 : ℚ))].lookup (upperStr "eur") = none) ∧
    ∃ p q, get_rate [("USD", (2 : ℚ))] "2024-01-02" "eur" =
      .error (p ++ upperStr "eur" ++ q) :=
  ⟨by decide,
    (upper_case_normalization [("USD", (2 : ℚ))] "2024-01-02" "eur" "a" "b").2.2
      (by decide)⟩

/-- The JSON body of a historical-rates response, as far as
`get_historical_rates` inspects it: whether a top-level `error` field is
present, the optional `message` field, and the optional `rates` object. -/
structure JsonBody where
  hasError : Bool
  msg : Option String
  rates : Option RateSheet
deriving DecidableEq

/-- The observable outcome of `requests.get` in `get_historical_rates`:
either a transport failure (timeout, DNS, connection error — a
`requests.exceptions.RequestException` carrying a message) or an HTTP
response with a status code and a parsed JSON body. -/
inductive HttpOutcome where
  | transportError (e : String)
  | response (status : Nat) (body : JsonBody)
deriving DecidableEq

def signupUrl : String := "https://openexchangerates.org/signup"

/-- The 401 message (`api.py` lines 129-132). -/
def auth401Msg : String :=
  "Invalid or expired API key. Please check your API key and try again. " ++
    "Get a free API key from: " ++ signupUrl

/-- The 403 message (`api.py` lines 134-137). -/
def auth403Msg : String :=
  "API access forbidden. Please check your API key permissions. " ++
    "Get a free API key from: " ++ signupUrl

/-- Model of `str(requests.exceptions.HTTPError)` produced by
`response.raise_for_status()` for a 4xx/5xx status: the text is
determined by the status code ("... Client Error ..." / "... Server
Error ..."); the exact suffix (reason and URL) is irrelevant to the
claims and abbreviated here. -/
def httpStatusError (status : Nat) : String :=
  toString status ++ (if status < 500 then " Client Error" else " Server Error")

/-- Model of `FXAPI.get_historical_rates` (`api.py` lines 103-151) as a function of
the HTTP outcome: 401 and 403 are answered first with descriptive
auth/permission errors; `raise_for_status` turns any other 4xx/5xx status
into an `HTTPError` that the `except RequestException` arm wraps as a
"Network error"; a transport failure is wrapped the same way; a body with
an `error` field becomes an "API Error" carrying the provider's
`message` (default "Unknown error"); otherwise `data.get('rates', {})`
is returned. -/
def get_historical_rates (o : HttpOutcome) : Except String RateSheet :=
  match o with
  | .transportError e => .error ("Network error: " ++ e)
  | .response status body =>
    if status = 401 then .error auth401Msg
    else if status = 403 then .error auth403Msg
    else if 400 ≤ status ∧ status < 600 then
      .error ("Network error: " ++ httpStatusError status)
    else if body.hasError then
      .error ("API Error: " ++ body.msg.getD "Unknown error")
    else .ok (body.rates.getD [])

theorem not_network_msg (m : String) (h : m.data.head? ≠ some 'N') (e' : String) :
    m ≠ "Network error: " ++ e' := by
  intro hm
  apply h
  rw [hm]
  rfl

/-- C3: complete case analysis of `get_historical_rates` over the HTTP
outcome: 401/403 raise auth errors that name the remediation URL and are
distinct from every generic network error; any other 4xx/5xx status and
any transport failure raise a generic network error; a success body with
an `error` field raises an API error carrying the provider's message;
otherwise the rates object (empty if absent) is returned. -/
theorem historical_rates_cases (e : String) (status : Nat) (body : JsonBody) :
    (get_historical_rates (.transportError e) = .error ("Network error: " ++ e)) ∧
    (status = 401 ∨ status = 403 →
      ∃ m, get_historical_rates (.response status body) = .error m ∧
        (∃ p q, m = p ++ signupUrl ++ q) ∧ ∀ e', m ≠ "Network error: " ++ e') ∧
    (400 ≤ status → status < 600 → status ≠ 401 → status ≠ 403 →
      get_historical_rates (.response status body) =
        .error ("Network error: " ++ httpStatusError status)) ∧
    (status < 400 → body.hasError = true →
      get_historical_rates (.response status body) =
        .error ("API Error: " ++ body.msg.getD "Unknown error")) ∧
    (status < 400 → body.hasError = false → ∀ r, body.rates = some r →
      get_historical_rates (.response status body) = .ok r) ∧
    (status < 400 → body.hasError = false → body.rates = none →
      get_historical_rates (.response status body) = .ok []) := by
  refine ⟨rfl, ?_, ?_, ?_, ?_, ?_⟩
  · rintro (rfl | rfl)
    · exact ⟨auth401Msg, by simp [get_historical_rates],
        ⟨"Invalid or expired API key. Please check your API key and try again. " ++
          "Get a free API key from: ", "", by simp [auth401Msg]⟩,
        not_network_msg _ (by decide)⟩
    · exact ⟨auth403Msg, by simp [get_historical_rates],
        ⟨"API access forbidden. Please check your API key permissions. " ++
          "Get a free API key from: ", "", by simp [auth403Msg]⟩,
        not_network_msg _ (by decide)⟩
  · intro h1 h2 h3 h4
    simp [get_historical_rates, h3, h4, h1, h2]
  · intro h1 h2
    have e1 : status ≠ 401 := by omega
    have e2 : status ≠ 403 := by omega
    have e3 : ¬ (400 ≤ status ∧ status < 600) := by omega
    simp [get_historical_rates, e1, e2, e3, h2]
  · intro h1 h2 r hr
    have e1 : status ≠ 401 := by omega
    have e2 : status ≠ 403 := by omega
    have e3 : ¬ (400 ≤ status ∧ status < 600) := by omega
    simp [get_historical_rates, e1, e2, e3, h2, hr]
  · intro h1 h2 hr
    have e1 : status ≠ 401 := by omega
    have e2 : status ≠ 403 := by omega
    have e3 : ¬ (400 ≤ status ∧ status < 600) := by omega
    simp [get_historical_rates, e1, e2, e3, h2, hr]

theorem historical_rates_cases_witness :
    ∃ m, get_historical_rates (.response 401 ⟨false, none, none⟩) = .error m ∧
      (∃ p q, m = p ++ signupUrl ++ q) ∧ ∀ e', m ≠ "Network error: " ++ e' :=
  (historical_rates_cases "boom" 401 ⟨false, none, none⟩).2.1 (Or.inl rfl)

def isLeapYear (y : Nat) : Bool := y % 4 = 0 ∧ (y % 100 ≠ 0 ∨ y % 400 = 0)

def daysInMonth (y m : Nat) : Nat :=
  if m = 2 then (if isLeapYear y then 29 else 28)
  else if m = 4 ∨ m = 6 ∨ m = 9 ∨ m = 11 then 30 else 31

def digitVal (c : Char) : Nat := c.toNat - 48

/-- The day field of `%Y-%m-%d`: one or two digits, terminating the
string (`strptime` rejects unconverted trailing data). -/
def parseDay (cs : List Char) : Option Nat :=
  match cs with
  | [d1] => if d1.isDigit then some (digitVal d1) else none
  | [d1, d2] =>
    if d1.isDigit ∧ d2.isDigit then some (digitVal d1 * 10 + digitVal d2) else none
  | _ => none

/-- The month field: one or two digits followed by the literal `-`. -/
def parseMonthDay (cs : List Char) : Option (Nat × Nat) :=
  match cs with
  | m1 :: m2 :: '-' :: rest =>
    if m1.isDigit ∧ m2.isDigit then
      (parseDay rest).map (fun d => (digitVal m1 * 10 + digitVal m2, d))
    else none
  | m1 :: '-' :: rest =>
    if m1.isDigit then (parseDay rest).map (fun d => (digitVal m1, d)) else none
  | _ => none

/-- Model of CPython `datetime.strptime(s, '%Y-%m-%d')` succeeding:
`%Y` is exactly four digits, `%m` and `%d` are one or two digits, the
two `-` are literal, nothing may remain, and the `datetime` constructor
then requires a real calendar date with year ≥ 1. -/
def validDate (s : String) : Bool :=
  match s.data with
  | y1 :: y2 :: y3 :: y4 :: '-' :: rest =>
    if y1.isDigit ∧ y2.isDigit ∧ y3.isDigit ∧ y4.isDigit then
      let y := ((digitVal y1 * 10 + digitVal y2) * 10 + digitVal y3) * 10 + digitVal y4
      match parseMonthDay rest with
      | some (m, d) =>
        1 ≤ y ∧ 1 ≤ m ∧ m ≤ 12 ∧ 1 ≤ d ∧ d ≤ daysInMonth y m
      | none => false
    else false
  | _ => false

inductive CliAction where
  | rate (date currency : String)
  | convert (date currency target : String)
deriving DecidableEq

/-- The observable outcome of `cli.main` up to the first network call:
either a `click.BadParameter` is raised (and the process aborts), or the
`FXAPI` client is constructed and one API call is performed. -/
inductive CliOutcome where
  | paramError (msg : String)
  | apiCall (a : CliAction)
deriving DecidableEq

/-- Python truthiness of the optional `target_currency` argument
(`None` and the empty string are falsy). -/
def truthy (o : Option String) : Bool :=
  match o with
  | none => false
  | some t => t ≠ ""

/-- Model of `cli.main` (`cli.py` lines 13-52) up to the first `FXAPI` use:
resolve the literal `'today'` (compared case-insensitively), validate the
date with `strptime('%Y-%m-%d')`, require `len(currency) == 3`, require
`len(target_currency) == 3` only when `target_currency` is truthy, and
only then construct the client and dispatch on the truthiness of
`target_currency`.  `todayStr` is the value of
`datetime.now().strftime('%Y-%m-%d')`. -/
def main (todayStr date currency : String) (target : Option String) : CliOutcome :=
  let date := if lowerStr date = "today" then todayStr else date
  if ¬ validDate date then
    .paramError ("Invalid date format: " ++ date ++ ". Use YYYY-MM-DD or 'today'")
  else if currency.length ≠ 3 then
    .paramError ("Invalid currency code: " ++ currency ++ ". Must be 3 letters")
  else if truthy target ∧ (target.getD "").length ≠ 3 then
    .paramError ("Invalid target currency code: " ++ target.getD "" ++ ". Must be 3 letters")
  else if truthy target then .apiCall (.convert date currency (target.getD ""))
  else .apiCall (.rate date currency)

/-- C6 counterexample: an empty target-currency argument has length 0 ≠ 3,
yet because the length check is guarded by Python truthiness
(`if target_currency and len(target_currency) != 3`) the empty string
slips through, the client is constructed and a network call is made. -/
theorem cli_empty_target_reaches_network :
    main "2025-10-12" "2024-01-02" "USD" (some "") =
      .apiCall (.rate "2024-01-02" "USD") ∧ ("" : String).length ≠ 3 := by decide

/-- C6 (amended): if the date (after resolving `'today'`) fails
`YYYY-MM-DD` parsing, or the currency code does not have length 3, or the
target-currency argument is non-empty and does not have length 3, then
`main` aborts with a parameter error before the `FXAPI` client is
constructed and before any network call. -/
theorem cli_validation_aborts (todayStr date currency : String) (target : Option String)
    (h : ¬ validDate (if lowerStr date = "today" then todayStr else date) ∨
      currency.length ≠ 3 ∨ (∃ t, target = some t ∧ t ≠ "" ∧ t.length ≠ 3)) :
    ∃ m, main todayStr date currency target = .paramError m := by
  unfold main
  by_cases h1 : validDate (if lowerStr date = "today" then todayStr else date)
  · rcases h with h | h | ⟨t, ht, hne, hlen⟩
    · exact absurd h1 h
    · by_cases h2 : currency.length = 3
      · exact absurd h2 h
      · simp [h1, h2]
    · by_cases h2 : currency.length = 3
      · simp [h1, h2, ht, truthy, hne, hlen]
      · simp [h1, h2]
  · simp [h1]

theorem cli_validation_aborts_witness :
    ∃ m, main "2025-10-12" "2024-13-40" "USD" none = .paramError m :=
  cli_validation_aborts "2025-10-12" "2024-13-40" "USD" none (Or.inl (by decide))

/-- Python `str.strip()` whitespace set (ASCII fragment; the prompt
inputs are single terminal lines). -/
def isPySpace (c : Char) : Bool :=
  c == ' ' || c == '\t' || c == '\n' || c == '\r' || c == '\x0B' || c == '\x0C'

def stripChars (cs : List Char) : List Char :=
  ((cs.dropWhile isPySpace).reverse.dropWhile isPySpace).reverse

/-- Python `str.strip()` as applied to the prompt input (`api.py` 45). -/
def pyStrip (s : String) : String := ⟨stripChars s.data⟩

/-- The result of the `while True` input loop in `_prompt_for_api_key`
(`api.py` lines 44-57).  `exhausted` models `input()` raising `EOFError`
when the scripted input runs out (the Python loop would block or crash
there). -/
inductive PromptResult where
  | declined
  | accepted (key : String)
  | exhausted
deriving DecidableEq

/-- The input loop (`api.py` lines 44-57): strip the input; `'N'` (case-insensitively,
checked first) raises; any other non-empty input is accepted; empty
input re-prompts. -/
def promptLoop : List String → PromptResult
  | [] => .exhausted
  | i :: rest =>
    let k := pyStrip i
    if upperStr k = "N" then .declined
    else if k ≠ "" then .accepted k
    else promptLoop rest

/-- Message of the error raised on decline (`api.py` line 48). -/
def declineMsg : String := "API key required to continue. Exiting."

/-- The quoted assignment line written for a key (`api.py` lines 79/84). -/
def keyLine (k : String) : String := "FX_API_KEY=\"" ++ k ++ "\""

/-- Model of `line.startswith('FX_API_KEY=')` (`api.py` line 78). -/
def isKeyLine (l : String) : Bool := "FX_API_KEY=".data.isPrefixOf l.data

/-- The replace-or-append loop of `_save_api_key_to_env` (`api.py` lines
74-84): replace the first line starting with `FX_API_KEY=` with the new
quoted assignment and stop, or append it when no such line exists. -/
def saveLines : List String → String → List String
  | [], k => [keyLine k]
  | l :: rest, k => if isKeyLine l then keyLine k :: rest else l :: saveLines rest k

/-- Python `'\n'.join` at the character level. -/
def joinChars : List (List Char) → List Char
  | [] => []
  | [l] => l
  | l :: l' :: ls => l ++ '\n' :: joinChars (l' :: ls)

def joinNL (ls : List String) : String := ⟨joinChars (ls.map String.data)⟩

/-- Python `str.split('\n')` at the character level. -/
def splitNLAux : List Char → List Char → List (List Char)
  | [], acc => [acc.reverse]
  | c :: cs, acc =>
    if c = '\n' then acc.reverse :: splitNLAux cs [] else splitNLAux cs (c :: acc)

def splitNL (s : String) : List String := (splitNLAux s.data []).map String.mk

/-- The `lines` list built from the existing file content (`api.py` lines 69-74):
content (`[]` when the file is absent or its content is empty). -/
def linesOf (existing : Option String) : List String :=
  let content := existing.getD ""
  if content = "" then [] else splitNL content

/-- Model of `_save_api_key_to_env` (`api.py` lines 59-96) as a transformer of the
config-file content (`none` = file absent).  The trailing `chmod 0600`,
whose failure is silently ignored, does not affect the content. -/
def saveContent (existing : Option String) (k : String) : String :=
  joinNL (saveLines (linesOf existing) k)

/-- Characters a double-quoted dotenv value may contain in the modelled
fragment: python-dotenv additionally processes backslash escape
sequences and `${...}` interpolation inside double quotes, so values
containing `"`, `\` or `$` are outside the fragment treated verbatim. -/
def tameChar (c : Char) : Bool := !(c == '"' || c == '\\' || c == '$')

/-- Model of one python-dotenv binding value.  A double-quoted value must
be terminated by a closing quote at the end of the line and (modelled
fragment) be free of `"`, `\`, `$`; an unquoted value is taken verbatim
modulo surrounding whitespace when it has no quote, comment or escape
characters. -/
def parseVal (v : List Char) : Option String :=
  match v with
  | '"' :: rest =>
    if rest.getLast? = some '"' ∧ rest.dropLast.all tameChar then
      some ⟨rest.dropLast⟩
    else none
  | _ =>
    if v.all (fun c => tameChar c && !(c == '#' || c == '\'')) then
      some ⟨stripChars v⟩
    else none

/-- A config line binds `FX_API_KEY` when it starts with `FX_API_KEY=`
(python-dotenv also tolerates leading whitespace and an `export`
keyword — outside the modelled fragment) and its value parses. -/
def parseLine (l : String) : Option String :=
  if isKeyLine l then parseVal (l.data.drop 11) else none

/-- Model of `load_dotenv(config_file)` followed by
`os.getenv('FX_API_KEY')` (`api.py` lines 30-36): python-dotenv collects
bindings into a dict in which a later binding of the same key overrides
an earlier one, so the last parsing `FX_API_KEY` line wins. -/
def parseContent (c : String) : Option String :=
  ((splitNL c).filterMap parseLine).getLast?

/-- Model of `_prompt_for_api_key` with its on-accept save (`api.py` lines
38-57): the raised/accepted key paired with the resulting config-file
content. -/
def promptStep (fs : Option String) (inputs : List String) :
    Except String String × Option String :=
  match promptLoop inputs with
  | .declined => (.error declineMsg, fs)
  | .exhausted => (.error "EOFError", fs)
  | .accepted k => (.ok k, some (saveContent fs k))

/-- Credential resolution in `FXAPI.__init__` (`api.py` lines 21-36):
the environment variable first (Python truthiness: unset and empty are
both falsy), then the config file via `load_dotenv` — which does not
override a variable already present in the environment, even an empty
one — then the interactive prompt. -/
def resolveCredential (env : Option String) (fs : Option String)
    (inputs : List String) : Except String String × Option String :=
  match env with
  | some e => if e ≠ "" then (.ok e, fs) else promptStep fs inputs
  | none =>
    match fs.bind parseContent with
    | some v => if v ≠ "" then (.ok v, fs) else promptStep fs inputs
    | none => promptStep fs inputs

theorem promptLoop_skips_empty (pre rest : List String)
    (hpre : ∀ j ∈ pre, pyStrip j = "") :
    promptLoop (pre ++ rest) = promptLoop rest := by
  induction pre with
  | nil => rfl
  | cons j pre ih =>
    have hj : pyStrip j = "" := hpre j (List.mem_cons_self _ _)
    have htail : ∀ x ∈ pre, pyStrip x = "" :=
      fun x hx => hpre x (List.mem_cons_of_mem _ hx)
    have hN : upperStr "" ≠ "N" := by decide
    calc promptLoop (j :: (pre ++ rest)) = promptLoop (pre ++ rest) := by
          simp [promptLoop, hj, hN]
      _ = promptLoop rest := ih htail

theorem promptLoop_accepts_first (pre : List String) (i : String) (post : List String)
    (hpre : ∀ j ∈ pre, pyStrip j = "") (hne : pyStrip i ≠ "")
    (hN : upperStr (pyStrip i) ≠ "N") :
    promptLoop (pre ++ i :: post) = .accepted (pyStrip i) := by
  rw [promptLoop_skips_empty pre _ hpre]
  simp [promptLoop, hN, hne]

/-- C8: when the prompt receives an input whose stripped form is
case-insensitively `N` (any earlier inputs having been empty re-prompts),
the operation aborts with the explicit decline error and the config file
content is exactly what it was — nothing is created or written. -/
theorem decline_writes_nothing (fs : Option String) (pre : List String) (i : String)
    (post : List String) (hpre : ∀ j ∈ pre, pyStrip j = "")
    (hN : upperStr (pyStrip i) = "N") :
    promptStep fs (pre ++ i :: post) = (.error declineMsg, fs) := by
  unfold promptStep
  rw [promptLoop_skips_empty pre _ hpre]
  simp [promptLoop, hN]

theorem decline_writes_nothing_witness :
    (∀ j ∈ (["", "  "] : List String), pyStrip j = "") ∧
    upperStr (pyStrip " n ") = "N" ∧
    promptStep (some "X=1") ["", "  ", " n ", "ZZZ"] = (.error declineMsg, some "X=1") :=
  ⟨by decide, by decide,
    decline_writes_nothing (some "X=1") ["", "  "] " n " ["ZZZ"] (by decide) (by decide)⟩

/-- C7 counterexample: a config file that defines the variable with an
empty value (`FX_API_KEY=""`).  The claim says a config-defined value is
used and no prompt occurs; the code treats the empty value as falsy and
runs the prompt, whose input becomes the credential. -/
theorem credential_config_defined_but_prompted :
    parseContent "FX_API_KEY=\"\"" = some "" ∧
    (resolveCredential none (some "FX_API_KEY=\"\"") ["K1"]).1 = .ok "K1" :=
  ⟨rfl, rfl⟩

/-- C7 (amended): a set and non-empty environment variable is used, with
the config file and prompt never consulted; with the variable unset, a
non-empty config-defined value is used and no prompt occurs; in every
other case — variable set but empty (`load_dotenv` never overrides an
existing variable), config absent, config not defining the variable, or
defining it as empty — the prompt loop runs, skipping empty inputs and
accepting the first non-empty stripped input that is not
case-insensitively `N`. -/
theorem credential_resolution_order :
    (∀ s fs inputs, s ≠ "" → resolveCredential (some s) fs inputs = (.ok s, fs)) ∧
    (∀ c v inputs, parseContent c = some v → v ≠ "" →
      resolveCredential none (some c) inputs = (.ok v, some c)) ∧
    (∀ env fs inputs,
      env = some "" ∨
        (env = none ∧ (fs.bind parseContent = none ∨ fs.bind parseContent = some "")) →
      resolveCredential env fs inputs = promptStep fs inputs) ∧
    (∀ fs pre i post, (∀ j ∈ pre, pyStrip j = "") → pyStrip i ≠ "" →
      upperStr (pyStrip i) ≠ "N" →
      promptStep fs (pre ++ i :: post) =
        (.ok (pyStrip i), some (saveContent fs (pyStrip i)))) := by
  refine ⟨?_, ?_, ?_, ?_⟩
  · intro s fs inputs h
    simp [resolveCredential, h]
  · intro c v inputs h hv
    simp [resolveCredential, h, hv]
  · intro env fs inputs h
    rcases h with rfl | ⟨rfl, h | h⟩
    · simp [resolveCredential]
    · simp [resolveCredential, h]
    · simp [resolveCredential, h]
  · intro fs pre i post hpre hne hN
    unfold promptStep
    rw [promptLoop_accepts_first pre i post hpre hne hN]

theorem credential_resolution_order_witness :
    resolveCredential (some "SECRET") (some "FX_API_KEY=\"other\"") ["x"] =
      (.ok "SECRET", some "FX_API_KEY=\"other\"") ∧
    promptStep none ["", "MYKEY"] = (.ok "MYKEY", some (saveContent none "MYKEY")) := by
  constructor
  · exact credential_resolution_order.1 "SECRET" (some "FX_API_KEY=\"other\"") ["x"]
      (by decide)
  · have h := credential_resolution_order.2.2.2 none [""] "MYKEY" []
      (by decide) (by decide) (by decide)
    have hp : pyStrip "MYKEY" = "MYKEY" := by decide
    rw [hp] at h
    exact h

theorem saveLines_no_key (lines : List String) (k : String)
    (h : ∀ x ∈ lines, isKeyLine x = false) :
    saveLines lines k = lines ++ [keyLine k] := by
  induction lines with
  | nil => rfl
  | cons l rest ih =>
    have hl : isKeyLine l = false := h l (List.mem_cons_self _ _)
    have htail : ∀ x ∈ rest, isKeyLine x = false :=
      fun x hx => h x (List.mem_cons_of_mem _ hx)
    simp [saveLines, hl, ih htail]

theorem saveLines_first_key (pre : List String) (l : String) (post : List String)
    (k : String) (hpre : ∀ x ∈ pre, isKeyLine x = false) (hl : isKeyLine l = true) :
    saveLines (pre ++ l :: post) k = pre ++ keyLine k :: post := by
  induction pre with
  | nil => simp [saveLines, hl]
  | cons p pre ih =>
    have hp : isKeyLine p = false := hpre p (List.mem_cons_self _ _)
    have htail : ∀ x ∈ pre, isKeyLine x = false :=
      fun x hx => hpre x (List.mem_cons_of_mem _ hx)
    simp [saveLines, hp, ih htail]

theorem splitNLAux_no_newline (cs : List Char) (h : '\n' ∉ cs) :
    ∀ acc, splitNLAux cs acc = [acc.reverse ++ cs] := by
  induction cs with
  | nil => intro acc; simp [splitNLAux]
  | cons c cs ih =>
    intro acc
    rw [List.mem_cons] at h
    push_neg at h
    obtain ⟨h1, h2⟩ := h
    rw [splitNLAux, if_neg (fun hc => h1 hc.symm), ih h2]
    simp

theorem splitNLAux_newline_split (cs : List Char) (h : '\n' ∉ cs) :
    ∀ rest acc, splitNLAux (cs ++ '\n' :: rest) acc =
      (acc.reverse ++ cs) :: splitNLAux rest [] := by
  induction cs with
  | nil => intro rest acc; simp [splitNLAux]
  | cons c cs ih =>
    intro rest acc
    rw [List.mem_cons] at h
    push_neg at h
    obtain ⟨h1, h2⟩ := h
    rw [List.cons_append, splitNLAux, if_neg (fun hc => h1 hc.symm), ih h2]
    simp

theorem splitNL_joinNL (ls : List String) (hne : ls ≠ [])
    (h : ∀ l ∈ ls, '\n' ∉ l.data) : splitNL (joinNL ls) = ls := by
  induction ls with
  | nil => cases hne rfl
  | cons l ls ih =>
    cases ls with
    | nil =>
      have hl : '\n' ∉ l.data := h l (List.mem_cons_self _ _)
      simp [splitNL, joinNL, joinChars, splitNLAux_no_newline l.data hl]
    | cons l' ls =>
      have hl : '\n' ∉ l.data := h l (List.mem_cons_self _ _)
      have htail : ∀ x ∈ l' :: ls, '\n' ∉ x.data :=
        fun x hx => h x (List.mem_cons_of_mem _ hx)
      have hrec := ih (by simp) htail
      have hjoin : (joinNL (l :: l' :: ls)).data =
          l.data ++ '\n' :: (joinNL (l' :: ls)).data := rfl
      unfold splitNL
      rw [hjoin, splitNLAux_newline_split l.data hl]
      unfold splitNL at hrec
      simp only [List.map_cons, List.nil_append]
      rw [hrec]
      rfl

theorem splitNLAux_mem_no_newline (cs : List Char) :
    ∀ acc, '\n' ∉ acc → ∀ l ∈ splitNLAux cs acc, '\n' ∉ l := by
  induction cs with
  | nil =>
    intro acc hacc l hl
    simp [splitNLAux] at hl
    subst hl
    simpa using hacc
  | cons c cs ih =>
    intro acc hacc l hl
    rw [splitNLAux] at hl
    by_cases hc : c = '\n'
    · rw [if_pos hc] at hl
      rcases List.mem_cons.mp hl with rfl | hl
      · simpa using hacc
      · exact ih [] (by simp) l hl
    · rw [if_neg hc] at hl
      refine ih (c :: acc) ?_ l hl
      intro hmem
      rcases List.mem_cons.mp hmem with hh | hh
      · exact hc hh.symm
      · exact hacc hh

theorem splitNL_mem_no_newline (s : String) (l : String) (hl : l ∈ splitNL s) :
    '\n' ∉ l.data := by
  unfold splitNL at hl
  obtain ⟨cs, hcs, rfl⟩ := List.mem_map.mp hl
  exact splitNLAux_mem_no_newline s.data [] (by simp) cs hcs

theorem linesOf_mem_no_newline (existing : Option String) (l : String)
    (hl : l ∈ linesOf existing) : '\n' ∉ l.data := by
  unfold linesOf at hl
  cases existing with
  | none => simp at hl
  | some c =>
    by_cases hc : c = ""
    · simp [hc] at hl
    · simp only [Option.getD_some] at hl
      rw [if_neg hc] at hl
      exact splitNL_mem_no_newline c l hl

theorem keyLine_no_newline (k : String) (hk : '\n' ∉ k.data) :
    '\n' ∉ (keyLine k).data := by
  have hdata : (keyLine k).data = ("FX_API_KEY=\"".data ++ k.data) ++ "\"".data := rfl
  rw [hdata]
  intro hmem
  rcases List.mem_append.mp hmem with hmem | hmem
  · rcases List.mem_append.mp hmem with hmem | hmem
    · exact absurd hmem (by decide)
    · exact hk hmem
  · exact absurd hmem (by decide)

theorem splitNL_saveContent_first_key (existing : Option String) (k : String)
    (hk : '\n' ∉ k.data) (pre : List String) (l : String) (post : List String)
    (hdec : linesOf existing = pre ++ l :: post)
    (hpre : ∀ x ∈ pre, isKeyLine x = false) (hl : isKeyLine l = true) :
    splitNL (saveContent existing k) = pre ++ keyLine k :: post := by
  unfold saveContent
  rw [hdec, saveLines_first_key pre l post k hpre hl]
  refine splitNL_joinNL _ (by simp) ?_
  intro x hx
  rcases List.mem_append.mp hx with hx | hx
  · exact linesOf_mem_no_newline existing x (by rw [hdec]; exact List.mem_append_left _ hx)
  · rcases List.mem_cons.mp hx with rfl | hx
    · exact keyLine_no_newline k hk
    · exact linesOf_mem_no_newline existing x
        (by rw [hdec]; exact List.mem_append_right _ (List.mem_cons_of_mem _ hx))

theorem splitNL_saveContent_no_key (existing : Option String) (k : String)
    (hk : '\n' ∉ k.data) (hall : ∀ x ∈ linesOf existing, isKeyLine x = false) :
    splitNL (saveContent existing k) = linesOf existing ++ [keyLine k] := by
  unfold saveContent
  rw [saveLines_no_key _ k hall]
  refine splitNL_joinNL _ (by simp) ?_
  intro x hx
  rcases List.mem_append.mp hx with hx | hx
  · exact linesOf_mem_no_newline existing x hx
  · rcases List.mem_cons.mp hx with rfl | hx
    · exact keyLine_no_newline k hk
    · simp at hx

/-- C10: for every prior content, the save operation maps the line list
of the file as follows — when a first `FX_API_KEY=`-prefixed line exists
it alone is replaced by the new quoted assignment, every other line
(before and after, including later `FX_API_KEY=` lines) staying unchanged
in order; when none exists, exactly one quoted assignment line is
appended at the end. -/
theorem save_preserves_frame (existing : Option String) (k : String)
    (hk : '\n' ∉ k.data) :
    (∀ pre l post, linesOf existing = pre ++ l :: post →
      (∀ x ∈ pre, isKeyLine x = false) → isKeyLine l = true →
      splitNL (saveContent existing k) = pre ++ keyLine k :: post) ∧
    ((∀ x ∈ linesOf existing, isKeyLine x = false) →
      splitNL (saveContent existing k) = linesOf existing ++ [keyLine k]) :=
  ⟨fun pre l post hdec hpre hl =>
    splitNL_saveContent_first_key existing k hk pre l post hdec hpre hl,
   fun hall => splitNL_saveContent_no_key existing k hk hall⟩

theorem save_preserves_frame_witness :
    ('\n' ∉ ("NEW" : String).data) ∧
    linesOf (some "A=1\nFX_API_KEY=old\nB=2\nFX_API_KEY=old2") =
      ["A=1"] ++ "FX_API_KEY=old" :: ["B=2", "FX_API_KEY=old2"] ∧
    splitNL (saveContent (some "A=1\nFX_API_KEY=old\nB=2\nFX_API_KEY=old2") "NEW") =
      ["A=1"] ++ keyLine "NEW" :: ["B=2", "FX_API_KEY=old2"] :=
  ⟨by decide, by decide,
    (save_preserves_frame (some "A=1\nFX_API_KEY=old\nB=2\nFX_API_KEY=old2") "NEW"
        (by decide)).1
      ["A=1"] "FX_API_KEY=old" ["B=2", "FX_API_KEY=old2"] (by decide) (by decide)
      (by decide)⟩

theorem parseLine_keyLine (k : String) (hkc : k.data.all tameChar = true) :
    parseLine (keyLine k) = some k := by
  have hlast : (k.data ++ ['"']).getLast? = some '"' := List.getLast?_concat _
  have hdrop : (k.data ++ ['"']).dropLast = k.data := List.dropLast_concat
  have h1 : parseLine (keyLine k) =
      if (k.data ++ ['"']).getLast? = some '"' ∧ (k.data ++ ['"']).dropLast.all tameChar
      then some ⟨(k.data ++ ['"']).dropLast⟩ else none := rfl
  rw [h1, if_pos ⟨hlast, by rw [hdrop]; exact hkc⟩, hdrop]

theorem parseLine_not_key (l : String) (h : isKeyLine l = false) :
    parseLine l = none := by
  simp [parseLine, h]

theorem exists_first_key (lines : List String)
    (h : ¬ ∀ x ∈ lines, isKeyLine x = false) :
    ∃ pre l post, lines = pre ++ l :: post ∧
      (∀ x ∈ pre, isKeyLine x = false) ∧ isKeyLine l = true := by
  induction lines with
  | nil => exact absurd (by simp) h
  | cons a rest ih =>
    by_cases ha : isKeyLine a = true
    · exact ⟨[], a, rest, rfl, by simp, ha⟩
    · have hrest : ¬ ∀ x ∈ rest, isKeyLine x = false := by
        intro hall
        apply h
        intro x hx
        rcases List.mem_cons.mp hx with rfl | hx
        · simpa using ha
        · exact hall x hx
      obtain ⟨pre, l, post, heq, hpre, hl⟩ := ih hrest
      refine ⟨a :: pre, l, post, by simp [heq], ?_, hl⟩
      intro x hx
      rcases List.mem_cons.mp hx with rfl | hx
      · simpa using ha
      · exact hpre x hx

theorem parse_saveContent (prior : Option String) (k : String)
    (hkc : k.data.all tameChar = true) (hkn : '\n' ∉ k.data)
    (hprior : (linesOf prior).countP isKeyLine ≤ 1) :
    parseContent (saveContent prior k) = some k := by
  unfold parseContent
  by_cases hall : ∀ x ∈ linesOf prior, isKeyLine x = false
  · rw [splitNL_saveContent_no_key prior k hkn hall, List.filterMap_append,
      List.filterMap_eq_nil_iff.mpr (fun a ha => parseLine_not_key a (hall a ha))]
    simp [parseLine_keyLine k hkc]
  · obtain ⟨pre, l, post, hdec, hpre, hl⟩ := exists_first_key _ hall
    have hpost : ∀ x ∈ post, isKeyLine x = false := by
      rw [hdec] at hprior
      rw [List.countP_append, List.countP_cons] at hprior
      have hpost0 : post.countP isKeyLine = 0 := by
        rw [hl] at hprior
        simp at hprior
        omega
      intro x hx
      have := List.countP_eq_zero.mp hpost0 x hx
      simpa using this
    rw [splitNL_saveContent_first_key prior k hkn pre l post hdec hpre hl,
      List.filterMap_append,
      List.filterMap_eq_nil_iff.mpr (fun a ha => parseLine_not_key a (hpre a ha))]
    rw [List.filterMap_cons, parseLine_keyLine k hkc,
      List.filterMap_eq_nil_iff.mpr (fun a ha => parseLine_not_key a (hpost a ha))]
    simp

/-- C9 counterexample: the prompt accepts the credential `A"B` (stripped,
non-empty, not `N`), but the save operation writes it unescaped inside
double quotes — `FX_API_KEY="A"B"` — which python-dotenv fails to parse,
so a subsequent resolution with the environment variable unset reads no
value back (and falls to the prompt) instead of reading `A"B`. -/
theorem credential_roundtrip_quote_break :
    pyStrip "A\"B" = "A\"B" ∧ upperStr "A\"B" ≠ "N" ∧
    parseContent (saveContent none "A\"B") = none ∧
    (resolveCredential none (some (saveContent none "A\"B")) []).1 ≠ .ok "A\"B" := by
  refine ⟨rfl, by decide, rfl, ?_⟩
  have h : (resolveCredential none (some (saveContent none "A\"B")) []).1 =
      Except.error "EOFError" := rfl
  rw [h]
  intro hc
  exact Except.noConfusion hc

/-- C9 (amended): a credential accepted at the prompt that contains no
double-quote, backslash or dollar character (and no newline) and is
persisted over a prior config content having at most one
`FX_API_KEY=`-prefixed line, is read back identically by a subsequent
resolution with the environment variable unset. -/
theorem credential_roundtrip (k : String) (prior : Option String)
    (inputs : List String) (hk : k ≠ "") (hkc : k.data.all tameChar = true)
    (hkn : '\n' ∉ k.data) (hprior : (linesOf prior).countP isKeyLine ≤ 1) :
    resolveCredential none (some (saveContent prior k)) inputs =
      (.ok k, some (saveContent prior k)) := by
  have hparse := parse_saveContent prior k hkc hkn hprior
  simp [resolveCredential, hparse, hk]

theorem credential_roundtrip_witness :
    resolveCredential none (some (saveContent (some "OTHER=1") "MYKEY")) [] =
      (.ok "MYKEY", some (saveContent (some "OTHER=1") "MYKEY")) :=
  credential_roundtrip "MYKEY" (some "OTHER=1") [] (by decide) (by decide)
    (by decide) (by decide)

end FxCli
